import Mathlib

/-!
Verification development for `deit_utils/engine.py` of UTAustin-VITA-CoMoE.

The Python code is shallowly embedded in Lean:
* Python floats are modelled exactly over `ℚ` where the code only performs
  field arithmetic (the metrics subsystem), and over `ℝ` where it uses
  `sqrt`/`exp`/`log` (the contrastive losses).  A separate small type
  `FloatVal` models IEEE non-finite values (nan, ±inf) for the loss
  validity check of `train_one_epoch`.
* `collections.deque(maxlen=c)` is modelled as a `List ℚ` that drops its
  oldest elements so that at most `c` remain.
* Fallible reads (`IndexError`, `ZeroDivisionError`, `RuntimeError` on an
  empty tensor, Python `AttributeError`) are modelled as `Option`: `none`
  is the raised error.
* The distributed world is modelled explicitly: world size `W`, rank
  `r : Fin W`, and per-process tensors given as functions `Fin W → ...`;
  `concat_all_gather` is the rank-ascending concatenation that
  `moco.builder.concat_all_gather` performs.
-/

/-! ## SmoothedValue (engine.py lines 209-266)

The `fmt` display template is omitted: it only affects `__str__`. -/

/-- Embedding of `SmoothedValue.__init__`: `deque(maxlen=window_size)` starts
empty, `total = 0.0`, `count = 0`.  `count` is a Python int: every in-repo
call site passes an integer weight (`n=1` or `n=batch_size`). -/
structure SmoothedValue where
  window : List ℚ
  window_size : ℕ
  total : ℚ
  count : ℤ
deriving DecidableEq

/-- Embedding of `SmoothedValue.__init__(window_size)`. -/
def SmoothedValue.init (window_size : ℕ) : SmoothedValue :=
  { window := [], window_size := window_size, total := 0, count := 0 }

/-- Embedding of `SmoothedValue.update(value, n)`: `deque.append` evicts the
oldest entry once `window_size` values are held (`drop` keeps the newest
`window_size` elements), `count += n`, `total += value * n`. -/
def SmoothedValue.update (sv : SmoothedValue) (value : ℚ) (n : ℤ) : SmoothedValue :=
  { sv with
    window := (sv.window ++ [value]).drop ((sv.window ++ [value]).length - sv.window_size),
    count := sv.count + n,
    total := sv.total + value * n }

/-- Median of a list of values the way `torch.median` computes it: the
element at index `(len-1)/2` of the sorted values (the lower middle value
for an even count); `none` models the RuntimeError torch raises on an
empty tensor. -/
def medianOfList (l : List ℚ) : Option ℚ :=
  if l = [] then none
  else some ((l.mergeSort (fun a b => decide (a ≤ b))).getD ((l.length - 1) / 2) 0)

/-- Mean of a list of values; `none` models the undefined (NaN) mean of an
empty tensor. -/
def meanOfList (l : List ℚ) : Option ℚ :=
  if l = [] then none else some (l.sum / l.length)

/-- Embedding of the `SmoothedValue.median` property: `torch.median` over the
current window only. -/
def SmoothedValue.median (sv : SmoothedValue) : Option ℚ :=
  medianOfList sv.window

/-- Embedding of the `SmoothedValue.avg` property: mean over the current
window only. -/
def SmoothedValue.avg (sv : SmoothedValue) : Option ℚ :=
  meanOfList sv.window

/-- Embedding of the `SmoothedValue.global_avg` property: `total / count`;
`none` models the ZeroDivisionError raised when `count == 0`. -/
def SmoothedValue.global_avg (sv : SmoothedValue) : Option ℚ :=
  if sv.count = 0 then none else some (sv.total / (sv.count : ℚ))

/-- Embedding of the `SmoothedValue.max` property: Python `max(deque)`;
`none` models the ValueError raised on an empty deque. -/
def SmoothedValue.max (sv : SmoothedValue) : Option ℚ :=
  sv.window.max?

/-- Embedding of the `SmoothedValue.value` property: `deque[-1]`; `none`
models the IndexError raised on an empty deque. -/
def SmoothedValue.value (sv : SmoothedValue) : Option ℚ :=
  sv.window.getLast?

/-- Embedding of `SmoothedValue.synchronize_between_processes`, run on every
process of the group: after the barrier, `dist.all_reduce` sums the
`[count, total]` float64 tensors of all processes, and each process stores
back `count = int(t[0])`, `total = t[1]`.  The float64 round trip of the
integer `count` is modelled as exact.  The deque (`window`) is untouched
(the code's docstring: does not synchronize the deque).  The input list
holds the per-process statistics in rank order; the output is the state of
every process after the collective. -/
def synchronize_between_processes (svs : List SmoothedValue) : List SmoothedValue :=
  svs.map fun sv =>
    { sv with
      count := (svs.map SmoothedValue.count).sum,
      total := (svs.map SmoothedValue.total).sum }

/-- Last `c` elements of a list (all of it if it is shorter than `c`). -/
def lastN (c : ℕ) (l : List ℚ) : List ℚ :=
  l.drop (l.length - c)

/-- Folding a sequence of `update (value, n)` calls over a statistic, in
call order. -/
def applyUpdates (s : SmoothedValue) (l : List (ℚ × ℤ)) : SmoothedValue :=
  l.foldl (fun sv p => sv.update p.1 p.2) s

/-! ## MetricLogger (engine.py lines 269-303) -/

/-- Embedding of `MetricLogger`: `meters` is the (insertion-ordered)
name-to-statistic mapping; `delimiter` is the display separator.  The
injected `log` sink is pure I/O and is not modelled beyond its presence in
the instance dictionary (see `internalAttrNames`). -/
structure MetricLogger where
  meters : List (String × SmoothedValue)
  delimiter : String
deriving DecidableEq

/-- Keys of the instance dictionary `self.__dict__` of a `MetricLogger`:
the attributes assigned in `__init__` (`meters`, `delimiter`, `log`). -/
def internalAttrNames : List String :=
  ["meters", "delimiter", "log"]

/-- Result of a successful `MetricLogger.__getattr__` lookup: either a
registered meter or an internal instance attribute. -/
inductive AttrResult where
  | meter (sv : SmoothedValue)
  | internalAttr (name : String)
deriving DecidableEq

/-- Embedding of `MetricLogger.__getattr__(attr)` (engine.py 282-288): first
`attr in self.meters` returns `self.meters[attr]`, then `attr in
self.__dict__` returns the internal attribute, otherwise an
`AttributeError` is raised (`none`). -/
def MetricLogger.getattr (ml : MetricLogger) (attr : String) : Option AttrResult :=
  match ml.meters.lookup attr with
  | some sv => some (AttrResult.meter sv)
  | none =>
    if attr ∈ internalAttrNames then some (AttrResult.internalAttr attr) else none

/-! ## train_one_epoch step (engine.py lines 81-161)

The per-batch body of the step loop is embedded as a state transformer.
Tensor computation (forward pass, criterion, gating activations) is kept
abstract: the batch's numeric outcomes enter as `FloatVal` scalars, and
the optimizer/scaler/EMA mutations are arbitrary functions over abstract
state types, so that a theorem asserting "state unchanged" holds for every
possible implementation of those collaborators. -/

/-- Model of a Python float scalar: a finite value, NaN, or a signed
infinity.  `math.isfinite` is true exactly on `finite`. -/
inductive FloatVal where
  | finite (x : ℚ)
  | nan
  | posInf
  | negInf
deriving DecidableEq

/-- Embedding of `math.isfinite`. -/
def FloatVal.isFinite : FloatVal → Bool
  | .finite _ => true
  | _ => false

/-- IEEE addition on modelled float scalars: NaN propagates, opposite
infinities give NaN, an infinity absorbs finite values. -/
def FloatVal.add : FloatVal → FloatVal → FloatVal
  | .nan, _ => .nan
  | _, .nan => .nan
  | .posInf, .negInf => .nan
  | .negInf, .posInf => .nan
  | .posInf, _ => .posInf
  | _, .posInf => .posInf
  | .negInf, _ => .negInf
  | _, .negInf => .negInf
  | .finite a, .finite b => .finite (a + b)

/-- Mutable state threaded through one training step: the learning rate of
the first optimizer parameter group, the optimizer's internal state, the
model parameters, the optional EMA shadow parameters, and the metric
logger state.  `O`, `P`, `M` are abstract. -/
structure TrainState (O P M : Type) where
  lr : ℚ
  optState : O
  params : P
  ema : Option P
  metrics : M
deriving DecidableEq

/-- The injected collaborators of `train_one_epoch`, kept abstract:
`adjust_learning_rate`, `optimizer.zero_grad`, the `loss_scaler` call
(backward + clip + step, mutating optimizer state and parameters),
`model_ema.update`, and `metric_logger.update` for one named scalar. -/
structure StepOps (O P M : Type) where
  adjustLR : ℚ → ℚ
  zeroGrad : O → O
  scalerStep : FloatVal → O → P → O × P
  emaUpdate : P → P → P
  updateMetric : M → String → FloatVal → M

/-- Numeric outcomes of the batch's forward computations:
`lossPrimary` is `loss.item()` of the distillation criterion (captured at
engine.py line 114, before any auxiliary loss is added), `gateLoss` is the
summed weighted MoE contrastive loss `loss_gate` (used when
`args.moe_contrastive_weight > 0`), and `loadLoss` is the noisy-gating
load-balance loss (present when `args.arch` starts with `moe_vit`). -/
structure BatchOutcome where
  lossPrimary : FloatVal
  gateLoss : FloatVal
  loadLoss : Option FloatVal
deriving DecidableEq

/-- Embedding of one iteration of the `train_one_epoch` step loop
(engine.py lines 92-156), in source order:
1. `adjust_learning_rate` when `args.kaiming_sched`;
2. `loss_value = loss.item()` of the primary criterion loss;
3. when `args.moe_contrastive_weight > 0`: record `loss_gate` in the
   metric logger and add it to the composed loss;
4. add the load-balance loss when present;
5. `if not math.isfinite(loss_value): raise ValueError(...)` — note the
   check reads `loss_value`, captured before steps 3-4;
6. `optimizer.zero_grad()`; the scaler-mediated backward/step;
7. `model_ema.update(model)` when an EMA model is configured;
8. record `loss` (the primary `loss_value`) and the current `lr`.
An error result carries the state exactly as it is when the exception
propagates. -/
def train_step {O P M : Type} (ops : StepOps O P M) (kaimingSched : Bool)
    (moeContrastiveWeight : ℚ) (b : BatchOutcome) (s : TrainState O P M) :
    Except (String × TrainState O P M) (TrainState O P M) :=
  let s1 := if kaimingSched then { s with lr := ops.adjustLR s.lr } else s
  let loss_value := b.lossPrimary
  let s2 := if 0 < moeContrastiveWeight then
      { s1 with metrics := ops.updateMetric s1.metrics "loss_gate" b.gateLoss }
    else s1
  let loss1 := if 0 < moeContrastiveWeight then loss_value.add b.gateLoss else loss_value
  let loss2 := match b.loadLoss with
    | some ll => loss1.add ll
    | none => loss1
  if loss_value.isFinite = false then
    Except.error ("Loss is non-finite, stopping training", s2)
  else
    let o1 := ops.zeroGrad s2.optState
    let op := ops.scalerStep loss2 o1 s2.params
    let s3 := { s2 with optState := op.1, params := op.2 }
    let s4 := { s3 with ema := s3.ema.map fun e => ops.emaUpdate e s3.params }
    Except.ok { s4 with
      metrics := ops.updateMetric
        (ops.updateMetric s4.metrics "loss" loss_value) "lr" (.finite s4.lr) }

/-! ## Contrastive losses (engine.py lines 25-78)

Vectors are `Fin d → ℝ`; a local batch is `Fin N → Fin d → ℝ`; the tensors
of all `W` cooperating processes are `Fin W → Fin N → ...`.  Real `sqrt`,
`exp` and `log` model the float kernels. -/

/-- Global index of local sample `j` of process `p` inside the
rank-ascending concatenation of per-process batches: `j + N * p`. -/
def globalIdx {W N : ℕ} (p : Fin W) (j : Fin N) : Fin (W * N) :=
  ⟨j.val + N * p.val, by
    have hj := j.isLt
    have hp := p.isLt
    calc j.val + N * p.val < N + N * p.val := by omega
      _ = N * (p.val + 1) := by ring
      _ ≤ N * W := Nat.mul_le_mul_left N (by omega)
      _ = W * N := Nat.mul_comm N W⟩

/-- Embedding of `moco.builder.concat_all_gather`: the concatenation of the
per-process tensors in rank-ascending order; global index `m` holds entry
`m % N` of process `m / N`. -/
def concat_all_gather {W N : ℕ} {α : Type} (xs : Fin W → Fin N → α)
    (m : Fin (W * N)) : α :=
  have hN : 0 < N := by
    rcases Nat.eq_zero_or_pos N with h | h
    · exfalso
      have hm := m.isLt
      have h0 : W * N = 0 := by rw [h, Nat.mul_zero]
      omega
    · exact h
  xs ⟨m.val / N, Nat.div_lt_of_lt_mul (by
        have hm := m.isLt
        have hc : W * N = N * W := Nat.mul_comm W N
        omega)⟩
    ⟨m.val % N, Nat.mod_lt _ hN⟩

/-- Embedding of `nn.functional.normalize(_, dim=1)` on one row: `v / max
(‖v‖₂, ε)` with torch's default `ε = 1e-12`. -/
noncomputable def l2normalize {d : ℕ} (v : Fin d → ℝ) : Fin d → ℝ :=
  fun i => v i / max (Real.sqrt (∑ j, v j ^ 2)) ((1 : ℝ) / 10 ^ 12)

/-- Exponential on a logit that may have been masked to `-inf`
(`exp (-inf) = 0`), as evaluated inside the softmax of
`nn.CrossEntropyLoss`. -/
noncomputable def expv (x : WithBot ℝ) : ℝ :=
  WithBot.recBotCoe 0 Real.exp x

/-- Embedding of `nn.CrossEntropyLoss()` with its default mean reduction on
a logits matrix whose entries may be `-inf` (`⊥`): the mean over rows of
`log (Σ_m exp logits[n,m]) - logits[n, target n]`.  In every use in this
file the target entry is a real logit (never `⊥`), so the junk value `0`
of `unbot'` at `⊥` is never read. -/
noncomputable def crossEntropyLoss {N M : ℕ} (logits : Fin N → Fin M → WithBot ℝ)
    (target : Fin N → Fin M) : ℝ :=
  (∑ n, (Real.log (∑ m, expv (logits n m)) - (logits n (target n)).unbot' 0)) / (N : ℝ)

/-- The similarity logits `einsum('nc,mc->nm', [q, k]) / temp` computed by
both loss functions, after row-normalizing `q` and each process's `k` and
gathering the normalized keys (engine.py lines 27-32 and 44-48, 68). -/
noncomputable def rawLogits {W N d : ℕ} (q : Fin N → Fin d → ℝ)
    (ks : Fin W → Fin N → Fin d → ℝ) (temp : ℝ) : Fin N → Fin (W * N) → ℝ :=
  fun n m =>
    (∑ c, l2normalize (q n) c * concat_all_gather (fun p j => l2normalize (ks p j)) m c) / temp

/-- Embedding of `contrastive_loss(q, k, temp)` (engine.py lines 25-37):
`CrossEntropyLoss(logits, arange(N) + N * rank) * (2 * temp)`.  The
positive target of local sample `n` is global index `n + N * rank`. -/
noncomputable def contrastive_loss {W N d : ℕ} (r : Fin W) (q : Fin N → Fin d → ℝ)
    (ks : Fin W → Fin N → Fin d → ℝ) (temp : ℝ) : ℝ :=
  crossEntropyLoss (fun n m => ((rawLogits q ks temp n m : ℝ) : WithBot ℝ))
    (fun n => globalIdx r n) * (2 * temp)

/-- Embedding of the boolean keep-mask of `supervised_contrastive_loss`
(engine.py lines 56-65): `label_mask[n,m] = |label_q[n] - label_k[m]| > 0`
(true exactly when the labels differ), then
`label_mask[arange(N), arange(N) + N*rank] = True` forces the positive
pair to be kept.  A `true` entry is kept; a `false` entry is filled with
`-inf` by `masked_fill_(~label_mask, -inf)`. -/
def supervisedMask {W N : ℕ} (r : Fin W) (lq : Fin N → ℤ) (lk : Fin (W * N) → ℤ)
    (n : Fin N) (m : Fin (W * N)) : Bool :=
  decide (0 < |lq n - lk m|) || decide (m = globalIdx r n)

/-- The logits matrix of `supervised_contrastive_loss` after
`masked_fill_(~label_mask, float('-inf'))` (engine.py line 71): kept
entries are the raw similarity logits, dropped entries are `-inf` (`⊥`).
`labels r` is the local label vector (`supervised_label_q = label`) and the
key labels are gathered exactly like the keys. -/
noncomputable def supervisedMaskedLogits {W N d : ℕ} (r : Fin W)
    (q : Fin N → Fin d → ℝ) (ks : Fin W → Fin N → Fin d → ℝ)
    (labels : Fin W → Fin N → ℤ) (temp : ℝ) (n : Fin N) (m : Fin (W * N)) : WithBot ℝ :=
  if supervisedMask r (labels r) (concat_all_gather labels) n m
  then ((rawLogits q ks temp n m : ℝ) : WithBot ℝ)
  else ⊥

/-- Embedding of `supervised_contrastive_loss(q, k, label, temp)`
(engine.py lines 40-78): cross entropy on the masked logits against the
same positive targets `arange(N) + N * rank`, times `2 * temp`.  The
single-process, torch-distributed-not-active path of the source (no
gather, `rank = 0`) is the instance `W = 1`, where the gather is the
identity reindexing. -/
noncomputable def supervised_contrastive_loss {W N d : ℕ} (r : Fin W)
    (q : Fin N → Fin d → ℝ) (ks : Fin W → Fin N → Fin d → ℝ)
    (labels : Fin W → Fin N → ℤ) (temp : ℝ) : ℝ :=
  crossEntropyLoss (supervisedMaskedLogits r q ks labels temp)
    (fun n => globalIdx r n) * (2 * temp)

/-! ## Concrete instances used in counterexamples and witnesses -/

/-- The single process of a world of size one (`rank = 0`). -/
def rankOne : Fin 1 := ⟨0, Nat.one_pos⟩

/-- A concrete query batch: two samples, one feature. -/
def exQ : Fin 2 → Fin 1 → ℝ := fun _ _ => 1

/-- A concrete key batch for the single process of a world of size one. -/
def exKs : Fin 1 → Fin 2 → Fin 1 → ℝ := fun _ _ _ => 1

/-- Pairwise distinct labels `[0, 1]` for a two-sample batch. -/
def exLabelsDistinct : Fin 2 → ℤ := fun j => (j.val : ℤ)

/-- The label tensor of every process in a world of size one. -/
def exLabelsW : Fin 1 → Fin 2 → ℤ := fun _ => exLabelsDistinct

/-- Global key index `1` in a gathered batch of size `1 * 2`. -/
def idxOne : Fin (1 * 2) := ⟨1, by omega⟩

/-- Concrete step collaborators over `ℕ` states whose optimizer, parameter
and metric mutations are all observable (each call bumps a counter). -/
def cexOps : StepOps ℕ ℕ ℕ where
  adjustLR := fun x => x
  zeroGrad := fun o => o + 1
  scalerStep := fun _ o p => (o + 10, p + 10)
  emaUpdate := fun e _ => e
  updateMetric := fun m _ _ => m + 1

/-- A concrete starting state for one training step. -/
def cexState : TrainState ℕ ℕ ℕ :=
  { lr := 0, optState := 0, params := 0, ema := none, metrics := 0 }

/-- A batch whose primary loss is finite but whose MoE contrastive gate loss
is NaN, so the composed loss is NaN. -/
def cexBatchGateNan : BatchOutcome :=
  { lossPrimary := .finite 1, gateLoss := .nan, loadLoss := none }

/-- A batch whose primary loss is NaN. -/
def cexBatchPrimaryNan : BatchOutcome :=
  { lossPrimary := .nan, gateLoss := .finite 0, loadLoss := none }

/-- Process-local statistic with `(count, total) = (3, 9.0)`. -/
def procA : SmoothedValue :=
  { window := [2, 3, 4], window_size := 20, total := 9, count := 3 }

/-- Process-local statistic with `(count, total) = (5, 10.0)`. -/
def procB : SmoothedValue :=
  { window := [2], window_size := 20, total := 10, count := 5 }

/-- `procA` after the cross-process reduction with `procB`. -/
def procASynced : SmoothedValue :=
  { window := [2, 3, 4], window_size := 20, total := 19, count := 8 }

/-- A meter holding one recorded value. -/
def exMeter : SmoothedValue :=
  { window := [3], window_size := 20, total := 3, count := 1 }

/-- A logger with the single registered metric name `"loss"`. -/
def exLogger : MetricLogger :=
  { meters := [("loss", exMeter)], delimiter := "  " }

/-! ## Helper lemmas -/

/-- Folding updates adds the weights to `count`. -/
theorem applyUpdates_count (l : List (ℚ × ℤ)) : ∀ s : SmoothedValue,
    (applyUpdates s l).count = s.count + (l.map (fun p => p.2)).sum := by
  induction l with
  | nil => intro s; simp [applyUpdates]
  | cons p t ih =>
    intro s
    show (applyUpdates (s.update p.1 p.2) t).count = _
    rw [ih]
    simp [SmoothedValue.update]
    ring

/-- Folding updates adds the weighted values to `total`. -/
theorem applyUpdates_total (l : List (ℚ × ℤ)) : ∀ s : SmoothedValue,
    (applyUpdates s l).total = s.total + (l.map (fun p => p.1 * (p.2 : ℚ))).sum := by
  induction l with
  | nil => intro s; simp [applyUpdates]
  | cons p t ih =>
    intro s
    show (applyUpdates (s.update p.1 p.2) t).total = _
    rw [ih]
    simp [SmoothedValue.update]
    ring

/-- Folding updates never changes the window capacity. -/
theorem applyUpdates_window_size (l : List (ℚ × ℤ)) : ∀ s : SmoothedValue,
    (applyUpdates s l).window_size = s.window_size := by
  induction l with
  | nil => intro s; rfl
  | cons p t ih =>
    intro s
    show (applyUpdates (s.update p.1 p.2) t).window_size = _
    rw [ih]
    rfl

/-- Keeping the last `c` elements twice in a row, with material appended in
between, is the same as keeping the last `c` elements once at the end. -/
theorem lastN_absorb (c : ℕ) (a b : List ℚ) :
    lastN c (lastN c a ++ b) = lastN c (a ++ b) := by
  unfold lastN
  rw [List.drop_append_eq_append_drop, List.drop_append_eq_append_drop, List.drop_drop]
  congr 1
  · congr 1
    simp [List.length_append, List.length_drop]
    omega
  · congr 1
    simp [List.length_append, List.length_drop]
    omega

/-- `lastN` is idempotent. -/
theorem lastN_idem (c : ℕ) (a : List ℚ) : lastN c (lastN c a) = lastN c a := by
  have h := lastN_absorb c a []
  simpa using h

/-- The window after a fold of updates holds exactly the newest
`window_size` of the appended values (provided the start window already
respects the capacity). -/
theorem applyUpdates_window (l : List (ℚ × ℤ)) : ∀ s : SmoothedValue,
    s.window = lastN s.window_size s.window →
    (applyUpdates s l).window = lastN s.window_size (s.window ++ l.map (fun p => p.1)) := by
  induction l with
  | nil =>
    intro s hs
    simpa [applyUpdates] using hs
  | cons p t ih =>
    intro s hs
    have hupd : (s.update p.1 p.2).window = lastN s.window_size (s.window ++ [p.1]) := rfl
    have hws : (s.update p.1 p.2).window_size = s.window_size := rfl
    show (applyUpdates (s.update p.1 p.2) t).window = _
    rw [ih (s.update p.1 p.2) (by rw [hupd, hws, lastN_idem]), hws, hupd, lastN_absorb]
    simp

/-- The rank-ascending gather places entry `j` of process `p` at global
index `j + N * p`. -/
theorem concat_all_gather_globalIdx {W N : ℕ} {α : Type} (xs : Fin W → Fin N → α)
    (p : Fin W) (j : Fin N) : concat_all_gather xs (globalIdx p j) = xs p j := by
  have hj := j.isLt
  have hN : 0 < N := by omega
  have hdiv : (j.val + N * p.val) / N = p.val := by
    rw [Nat.add_mul_div_left _ _ hN, Nat.div_eq_of_lt hj]
    omega
  have hmod : (j.val + N * p.val) % N = j.val := by
    rw [Nat.add_mul_mod_self_left]
    exact Nat.mod_eq_of_lt hj
  show xs ⟨(globalIdx p j).val / N, _⟩ ⟨(globalIdx p j).val % N, _⟩ = xs p j
  exact congr (congrArg xs (Fin.ext hdiv)) (Fin.ext hmod)

/-- In a world of size one, the gather is the identity reindexing. -/
theorem concat_all_gather_one {N : ℕ} {α : Type} (x : Fin N → α) (m : Fin (1 * N))
    (hm : m.val < N) : concat_all_gather (fun _ : Fin 1 => x) m = x ⟨m.val, hm⟩ := by
  show x ⟨m.val % N, _⟩ = x ⟨m.val, hm⟩
  exact congrArg x (Fin.ext (Nat.mod_eq_of_lt hm))

/-- Characterization of the supervised mask fill: an entry of the masked
logits is `-inf` exactly when the query and key labels agree and the entry
is not the forced positive pair. -/
theorem supervisedMaskedLogits_eq_bot_iff {W N d : ℕ} (r : Fin W)
    (q : Fin N → Fin d → ℝ) (ks : Fin W → Fin N → Fin d → ℝ)
    (labels : Fin W → Fin N → ℤ) (temp : ℝ) (n : Fin N) (m : Fin (W * N)) :
    supervisedMaskedLogits r q ks labels temp n m = ⊥
      ↔ labels r n = concat_all_gather labels m ∧ m ≠ globalIdx r n := by
  unfold supervisedMaskedLogits supervisedMask
  by_cases hp : m = globalIdx r n
  · simp [hp]
  · by_cases he : labels r n = concat_all_gather labels m
    · simp [hp, he]
    · simp [hp, he, abs_pos, sub_ne_zero]

/-! ## Claim theorems -/

/-- C4: for every nonempty sequence of `update(v, w)` calls (with a nonzero
weight sum, so the quotient exists), `global_avg` equals
`(Σ v_i·w_i) / (Σ w_i)` exactly over the rational model, independent of the
window capacity chosen at construction. -/
theorem c4_global_avg_is_weighted_mean (cap : ℕ) (l : List (ℚ × ℤ)) (_h0 : l ≠ [])
    (hw : (l.map (fun p => p.2)).sum ≠ 0) :
    (applyUpdates (SmoothedValue.init cap) l).global_avg
      = some ((l.map (fun p => p.1 * (p.2 : ℚ))).sum / (((l.map (fun p => p.2)).sum : ℤ) : ℚ)) := by
  rw [SmoothedValue.global_avg, applyUpdates_count, applyUpdates_total]
  simp [SmoothedValue.init, hw]

/-- C4 witness: the update sequence `(2, w=1), (4, w=3)` has global average
`14/4`, with window capacity `20`. -/
theorem c4_global_avg_is_weighted_mean_witness :
    ([((2 : ℚ), (1 : ℤ)), (4, 3)] : List (ℚ × ℤ)) ≠ []
    ∧ (([((2 : ℚ), (1 : ℤ)), (4, 3)] : List (ℚ × ℤ)).map (fun p => p.2)).sum ≠ 0
    ∧ (applyUpdates (SmoothedValue.init 20) [((2 : ℚ), (1 : ℤ)), (4, 3)]).global_avg
      = some (((([((2 : ℚ), (1 : ℤ)), (4, 3)] : List (ℚ × ℤ)).map (fun p => p.1 * (p.2 : ℚ))).sum
          / ((([((2 : ℚ), (1 : ℤ)), (4, 3)] : List (ℚ × ℤ)).map (fun p => p.2)).sum : ℤ))) :=
  ⟨by decide, by decide,
    c4_global_avg_is_weighted_mean 20 [((2 : ℚ), (1 : ℤ)), (4, 3)] (by decide) (by decide)⟩

/-- C7: the window-bounded views `median`, `avg`, `max` and `value` are
functions of only the last `min(capacity, number-of-updates)` values: two
update sequences whose value streams agree on their last `capacity` values
yield identical results for all four views. -/
theorem c7_window_views_depend_on_last_capacity_values (cap : ℕ) (l1 l2 : List (ℚ × ℤ))
    (h : lastN cap (l1.map (fun p => p.1)) = lastN cap (l2.map (fun p => p.1))) :
    (applyUpdates (SmoothedValue.init cap) l1).median
        = (applyUpdates (SmoothedValue.init cap) l2).median
    ∧ (applyUpdates (SmoothedValue.init cap) l1).avg
        = (applyUpdates (SmoothedValue.init cap) l2).avg
    ∧ (applyUpdates (SmoothedValue.init cap) l1).max
        = (applyUpdates (SmoothedValue.init cap) l2).max
    ∧ (applyUpdates (SmoothedValue.init cap) l1).value
        = (applyUpdates (SmoothedValue.init cap) l2).value := by
  have h1 := applyUpdates_window l1 (SmoothedValue.init cap) (by simp [SmoothedValue.init, lastN])
  have h2 := applyUpdates_window l2 (SmoothedValue.init cap) (by simp [SmoothedValue.init, lastN])
  have hwin : (applyUpdates (SmoothedValue.init cap) l1).window
      = (applyUpdates (SmoothedValue.init cap) l2).window := by
    rw [h1, h2]
    simpa [SmoothedValue.init] using h
  exact ⟨by simp only [SmoothedValue.median, hwin], by simp only [SmoothedValue.avg, hwin],
    by simp only [SmoothedValue.max, hwin], by simp only [SmoothedValue.value, hwin]⟩

/-- C7 witness: with capacity `2`, the streams `5,1,2` and `9,9,1,2` share
their last two values, so all four window views agree. -/
theorem c7_window_views_depend_on_last_capacity_values_witness :
    lastN 2 (([((5 : ℚ), (1 : ℤ)), (1, 1), (2, 1)] : List (ℚ × ℤ)).map (fun p => p.1))
      = lastN 2 (([((9 : ℚ), (1 : ℤ)), (9, 1), (1, 1), (2, 1)] : List (ℚ × ℤ)).map (fun p => p.1))
    ∧ ((applyUpdates (SmoothedValue.init 2) [((5 : ℚ), (1 : ℤ)), (1, 1), (2, 1)]).median
        = (applyUpdates (SmoothedValue.init 2) [((9 : ℚ), (1 : ℤ)), (9, 1), (1, 1), (2, 1)]).median
      ∧ (applyUpdates (SmoothedValue.init 2) [((5 : ℚ), (1 : ℤ)), (1, 1), (2, 1)]).avg
        = (applyUpdates (SmoothedValue.init 2) [((9 : ℚ), (1 : ℤ)), (9, 1), (1, 1), (2, 1)]).avg
      ∧ (applyUpdates (SmoothedValue.init 2) [((5 : ℚ), (1 : ℤ)), (1, 1), (2, 1)]).max
        = (applyUpdates (SmoothedValue.init 2) [((9 : ℚ), (1 : ℤ)), (9, 1), (1, 1), (2, 1)]).max
      ∧ (applyUpdates (SmoothedValue.init 2) [((5 : ℚ), (1 : ℤ)), (1, 1), (2, 1)]).value
        = (applyUpdates (SmoothedValue.init 2) [((9 : ℚ), (1 : ℤ)), (9, 1), (1, 1), (2, 1)]).value) :=
  ⟨by decide,
    c7_window_views_depend_on_last_capacity_values 2
      [((5 : ℚ), (1 : ℤ)), (1, 1), (2, 1)]
      [((9 : ℚ), (1 : ℤ)), (9, 1), (1, 1), (2, 1)] (by decide)⟩

/-- C8: reading `global_avg` on a statistic with `count == 0` fails with the
divide-by-zero arithmetic error (modelled `none`) rather than returning a
value. -/
theorem c8_global_avg_zero_count_fails (sv : SmoothedValue) (h : sv.count = 0) :
    sv.global_avg = none := by
  simp [SmoothedValue.global_avg, h]

/-- C8 witness: a freshly constructed statistic has `count = 0` and reading
its global average fails. -/
theorem c8_global_avg_zero_count_fails_witness :
    (SmoothedValue.init 20).count = 0 ∧ (SmoothedValue.init 20).global_avg = none :=
  ⟨rfl, c8_global_avg_zero_count_fails (SmoothedValue.init 20) rfl⟩

/-- C9: `MetricLogger.__getattr__` returns the registered meter for a name
present in `meters`, and fails with AttributeError (modelled `none`) for a
name that is neither a registered metric nor an internal instance
attribute. -/
theorem c9_getattr_meter_or_attribute_error (ml : MetricLogger) (attr : String) :
    (∀ sv, ml.meters.lookup attr = some sv → ml.getattr attr = some (AttrResult.meter sv))
    ∧ (ml.meters.lookup attr = none → attr ∉ internalAttrNames → ml.getattr attr = none) := by
  constructor
  · intro sv h
    simp [MetricLogger.getattr, h]
  · intro h1 h2
    simp [MetricLogger.getattr, h1, h2]

/-- C9 witness: on a logger with the single meter `"loss"`, looking up
`"loss"` returns that meter and looking up `"bogus"` raises. -/
theorem c9_getattr_meter_or_attribute_error_witness :
    exLogger.getattr "loss" = some (AttrResult.meter exMeter)
    ∧ exLogger.getattr "bogus" = none :=
  ⟨(c9_getattr_meter_or_attribute_error exLogger "loss").1 exMeter (by decide),
    (c9_getattr_meter_or_attribute_error exLogger "bogus").2 (by decide) (by decide)⟩

/-- C10: on a freshly created `SmoothedValue` every read view fails or is
undefined: `value` and `max` fail on the empty window, `median` and `avg`
are undefined over the empty sequence, and `global_avg` divides by zero. -/
theorem c10_fresh_statistic_views_all_fail (cap : ℕ) :
    (SmoothedValue.init cap).value = none
    ∧ (SmoothedValue.init cap).max = none
    ∧ (SmoothedValue.init cap).median = none
    ∧ (SmoothedValue.init cap).avg = none
    ∧ (SmoothedValue.init cap).global_avg = none := by
  refine ⟨rfl, rfl, ?_, ?_, ?_⟩
  · simp [SmoothedValue.median, SmoothedValue.init, medianOfList]
  · simp [SmoothedValue.avg, SmoothedValue.init, meanOfList]
  · simp [SmoothedValue.global_avg, SmoothedValue.init]

/-- C5: the cross-process synchronization replaces every process's `count`
and `total` by their sums over all processes and leaves every
recent-history window unchanged; merging local `(count, total)` of
`(3, 9.0)` and `(5, 10.0)` yields `count = 8`, `total = 19.0` and
`global_avg = 2.375` on every process. -/
theorem c5_synchronize_sums_count_total_keeps_window (svs : List SmoothedValue)
    (sv : SmoothedValue) (h : sv ∈ synchronize_between_processes svs) :
    (sv.count = (svs.map SmoothedValue.count).sum
      ∧ sv.total = (svs.map SmoothedValue.total).sum)
    ∧ (synchronize_between_processes svs).map SmoothedValue.window
        = svs.map SmoothedValue.window
    ∧ (synchronize_between_processes [procA, procB]).map SmoothedValue.count = [8, 8]
    ∧ (synchronize_between_processes [procA, procB]).map SmoothedValue.total = [19, 19]
    ∧ (synchronize_between_processes [procA, procB]).map SmoothedValue.global_avg
        = [some 2.375, some 2.375] := by
  refine ⟨?_, ?_, by decide, ?_, ?_⟩
  · rcases List.mem_map.mp h with ⟨sv0, _, rfl⟩
    exact ⟨rfl, rfl⟩
  · simp [synchronize_between_processes]
  · simp [synchronize_between_processes, procA, procB]
    norm_num
  · simp [synchronize_between_processes, SmoothedValue.global_avg, procA, procB]
    norm_num

/-- C5 witness: the synchronization of `(3, 9.0)` and `(5, 10.0)` applied at
the first process, whose merged statistic is `procASynced`. -/
theorem c5_synchronize_sums_count_total_keeps_window_witness :
    (procASynced.count = ([procA, procB].map SmoothedValue.count).sum
      ∧ procASynced.total = ([procA, procB].map SmoothedValue.total).sum)
    ∧ (synchronize_between_processes [procA, procB]).map SmoothedValue.window
        = [procA, procB].map SmoothedValue.window
    ∧ (synchronize_between_processes [procA, procB]).map SmoothedValue.count = [8, 8]
    ∧ (synchronize_between_processes [procA, procB]).map SmoothedValue.total = [19, 19]
    ∧ (synchronize_between_processes [procA, procB]).map SmoothedValue.global_avg
        = [some 2.375, some 2.375] :=
  c5_synchronize_sums_count_total_keeps_window [procA, procB] procASynced (by
    simp [synchronize_between_processes, procA, procB, procASynced]
    norm_num)

/-- C2 counterexample: with single-process labels `[0, 1]`, the pair
`(n, m) = (0, 1)` has differing labels and is not the positive pair
`(0, 0)`, yet its logit is NOT set to negative infinity — the mask keeps
differing-label pairs and fills equal-label pairs, the opposite of the
claimed direction. -/
theorem c2_differing_label_pair_is_not_masked :
    exLabelsW rankOne 0 ≠ concat_all_gather exLabelsW idxOne
    ∧ idxOne ≠ globalIdx rankOne (0 : Fin 2)
    ∧ supervisedMaskedLogits rankOne exQ exKs exLabelsW (1 / 5) 0 idxOne ≠ ⊥ := by
  refine ⟨by decide, by decide, ?_⟩
  have hm : supervisedMask rankOne (exLabelsW rankOne) (concat_all_gather exLabelsW)
      (0 : Fin 2) idxOne = true := by decide
  simp [supervisedMaskedLogits, hm]

/-- C2 amended: `supervised_contrastive_loss` masks out (sets to negative
infinity, excluding from the softmax denominator) every pair `(n, m)`
whose labels are EQUAL, except the true positive pair
`(n, n + rank * local_batch_size)`, which is always left unmasked
regardless of label equality; the loss is the cross entropy of exactly
this masked matrix. -/
theorem c2_supervised_masks_equal_label_pairs_except_positive {W N d : ℕ} (r : Fin W)
    (q : Fin N → Fin d → ℝ) (ks : Fin W → Fin N → Fin d → ℝ)
    (labels : Fin W → Fin N → ℤ) (temp : ℝ) (n : Fin N) (m : Fin (W * N)) :
    (supervisedMaskedLogits r q ks labels temp n m = ⊥
        ↔ labels r n = concat_all_gather labels m ∧ m ≠ globalIdx r n)
    ∧ supervisedMaskedLogits r q ks labels temp n (globalIdx r n) ≠ ⊥
    ∧ supervised_contrastive_loss r q ks labels temp
        = crossEntropyLoss (supervisedMaskedLogits r q ks labels temp)
            (fun i => globalIdx r i) * (2 * temp) := by
  refine ⟨supervisedMaskedLogits_eq_bot_iff r q ks labels temp n m, ?_, rfl⟩
  intro hbot
  rcases (supervisedMaskedLogits_eq_bot_iff r q ks labels temp n (globalIdx r n)).mp hbot
    with ⟨_, hne⟩
  exact hne rfl

/-- C3: on a single process, when all per-sample labels are pairwise
distinct, `supervised_contrastive_loss` returns a value identical to
`contrastive_loss` on the same query, keys and temperature (the mask keeps
every pair, so the logits are unchanged). -/
theorem c3_distinct_labels_supervised_equals_unsupervised {N d : ℕ}
    (q k : Fin N → Fin d → ℝ) (lab : Fin N → ℤ) (temp : ℝ)
    (hdist : ∀ i j : Fin N, i ≠ j → lab i ≠ lab j) :
    supervised_contrastive_loss (W := 1) rankOne q (fun _ => k) (fun _ => lab) temp
      = contrastive_loss (W := 1) rankOne q (fun _ => k) temp := by
  have hmask : ∀ (n : Fin N) (m : Fin (1 * N)),
      supervisedMask rankOne lab (concat_all_gather (fun _ : Fin 1 => lab)) n m = true := by
    intro n m
    have hmN : m.val < N := by have := m.isLt; omega
    unfold supervisedMask
    rw [concat_all_gather_one lab m hmN]
    by_cases hlab : lab n = lab ⟨m.val, hmN⟩
    · have hnm : n = ⟨m.val, hmN⟩ := by
        by_contra hne
        exact hdist n ⟨m.val, hmN⟩ hne hlab
      have hval : n.val = m.val := by rw [hnm]
      have hpos : m = globalIdx rankOne n := by
        apply Fin.ext
        show m.val = n.val + N * rankOne.val
        simp [rankOne]
        omega
      simp [hpos]
    · simp [abs_pos, sub_ne_zero, hlab]
  have heq : supervisedMaskedLogits rankOne q (fun _ => k) (fun _ => lab) temp
      = fun n m => ((rawLogits q (fun _ => k) temp n m : ℝ) : WithBot ℝ) := by
    funext n m
    simp only [supervisedMaskedLogits]
    rw [hmask n m]
    simp
  unfold supervised_contrastive_loss contrastive_loss
  rw [heq]

/-- C3 witness: a concrete two-sample, one-feature batch with distinct
labels `[0, 1]`. -/
theorem c3_distinct_labels_supervised_equals_unsupervised_witness :
    (∀ i j : Fin 2, i ≠ j → exLabelsDistinct i ≠ exLabelsDistinct j)
    ∧ supervised_contrastive_loss rankOne exQ exKs exLabelsW (1 / 5)
        = contrastive_loss rankOne exQ exKs (1 / 5) :=
  ⟨by decide,
    c3_distinct_labels_supervised_equals_unsupervised exQ (exKs rankOne) exLabelsDistinct
      (1 / 5) (by decide)⟩

/-- C6: `contrastive_loss` equals `temp * 2 * CrossEntropy` of the logits
matrix `logits[n,m] = dot(normalized q_n, gathered normalized k_m) / temp`
with positive target `n + N * rank` for local sample `n`; the gathered
keys are the per-process normalized keys in rank-ascending contiguous
order; and in a single-process world the positive index of sample `n` is
`n` itself. -/
theorem c6_contrastive_loss_characterization {W N d : ℕ} (r : Fin W)
    (q : Fin N → Fin d → ℝ) (ks : Fin W → Fin N → Fin d → ℝ) (temp : ℝ) :
    contrastive_loss r q ks temp
        = temp * 2 * crossEntropyLoss
            (fun n m => ((rawLogits q ks temp n m : ℝ) : WithBot ℝ))
            (fun n => globalIdx r n)
    ∧ (∀ (n : Fin N) (m : Fin (W * N)),
        rawLogits q ks temp n m
          = (∑ c, l2normalize (q n) c
              * concat_all_gather (fun p j => l2normalize (ks p j)) m c) / temp)
    ∧ (∀ (p : Fin W) (j : Fin N),
        concat_all_gather (fun a b => l2normalize (ks a b)) (globalIdx p j)
          = l2normalize (ks p j))
    ∧ (∀ n : Fin N, (globalIdx r n).val = n.val + N * r.val)
    ∧ (∀ (a : Fin 1) (n : Fin N), (globalIdx a n).val = n.val) := by
  refine ⟨by rw [contrastive_loss]; ring, fun n m => rfl,
    fun p j => concat_all_gather_globalIdx (fun a b => l2normalize (ks a b)) p j,
    fun n => rfl, fun a n => ?_⟩
  have ha : a.val = 0 := by omega
  simp [globalIdx, ha]

/-- C1 counterexample: a batch whose COMPOSED loss is non-finite (primary
loss `1.0` plus a NaN MoE gate loss, with `moe_contrastive_weight = 1 > 0`)
does NOT abort the step: `train_step` succeeds and the optimizer state and
model parameters are mutated (from `0`/`0` to `11`/`10` under the concrete
collaborators), because the finiteness check reads `loss_value`, captured
from the primary loss before the auxiliary losses are added. -/
theorem c1_composed_nonfinite_loss_does_not_abort :
    ((FloatVal.finite 1).add FloatVal.nan).isFinite = false
    ∧ train_step cexOps false 1 cexBatchGateNan cexState
        = Except.ok { lr := 0, optState := 11, params := 10, ema := none, metrics := 3 } := by
  constructor
  · rfl
  · rfl

/-- C1 amended: for every batch whose PRIMARY loss value (`loss.item()` of
the distillation criterion, captured before the auxiliary gate/load losses
are composed) is NaN or infinite, the step raises the fatal ValueError
before any optimizer mutation: for arbitrary collaborator implementations,
the state carried by the propagating error has the optimizer state, the
model parameters and the EMA shadow parameters of the incoming state
(neither `zero_grad` nor the scaler step was applied). -/
theorem c1_nonfinite_primary_loss_aborts_before_optimizer {O P M : Type}
    (ops : StepOps O P M) (kaimingSched : Bool) (moeContrastiveWeight : ℚ)
    (b : BatchOutcome) (s : TrainState O P M)
    (h : b.lossPrimary.isFinite = false) :
    ∃ e : String × TrainState O P M,
      train_step ops kaimingSched moeContrastiveWeight b s = Except.error e
      ∧ e.1 = "Loss is non-finite, stopping training"
      ∧ e.2.optState = s.optState ∧ e.2.params = s.params ∧ e.2.ema = s.ema := by
  by_cases hk : kaimingSched <;> by_cases hw : 0 < moeContrastiveWeight
  · exact ⟨("Loss is non-finite, stopping training",
      { lr := ops.adjustLR s.lr, optState := s.optState, params := s.params, ema := s.ema,
        metrics := ops.updateMetric s.metrics "loss_gate" b.gateLoss }),
      by simp [train_step, h, hk, hw], rfl, rfl, rfl, rfl⟩
  · exact ⟨("Loss is non-finite, stopping training",
      { lr := ops.adjustLR s.lr, optState := s.optState, params := s.params, ema := s.ema,
        metrics := s.metrics }),
      by simp [train_step, h, hk, hw], rfl, rfl, rfl, rfl⟩
  · exact ⟨("Loss is non-finite, stopping training",
      { lr := s.lr, optState := s.optState, params := s.params, ema := s.ema,
        metrics := ops.updateMetric s.metrics "loss_gate" b.gateLoss }),
      by simp [train_step, h, hk, hw], rfl, rfl, rfl, rfl⟩
  · exact ⟨("Loss is non-finite, stopping training", s),
      by simp [train_step, h, hk, hw], rfl, rfl, rfl, rfl⟩

/-- C1 amended witness: a batch with NaN primary loss aborts the step with
optimizer state, parameters and EMA untouched. -/
theorem c1_nonfinite_primary_loss_aborts_before_optimizer_witness :
    cexBatchPrimaryNan.lossPrimary.isFinite = false
    ∧ ∃ e : String × TrainState ℕ ℕ ℕ,
        train_step cexOps false 1 cexBatchPrimaryNan cexState = Except.error e
        ∧ e.1 = "Loss is non-finite, stopping training"
        ∧ e.2.optState = cexState.optState ∧ e.2.params = cexState.params
        ∧ e.2.ema = cexState.ema :=
  ⟨rfl, c1_nonfinite_primary_loss_aborts_before_optimizer cexOps false 1
    cexBatchPrimaryNan cexState rfl⟩
